import Mathlib

/-!
Verification of the progress-briefing plugin (src/index.ts) against its
natural-language specification.

The development shallowly embeds the plugin's core logic:
  * the append-only job event store and its latest-per-key reduction
    (`readJobs`, `upsertJob`, reset tool);
  * the incremental log tailer cursor arithmetic (`tailerStep`);
  * the health-signal detector and cumulative, cooldown-gated, latched
    escalation machine (`observeTick`);
  * the briefing scheduler's publish decision and publish/failure step
    (`shouldPost`, `publishStep`).

Machine integers are modelled as `Nat` (JS timestamps, byte counts and
counters are non-negative); where the source subtracts possibly-larger
numbers before a comparison, the comparison is carried out in `Int`.
Regex / substring classification of raw log lines is abstracted at the
line boundary: each scanned line is represented by its classification
record (`ObsLine`), and everything downstream of the classification is
translated verbatim from the source.
-/

namespace ProgressBriefing

/-- Job lifecycle states, from the `JobState` union type in the source. -/
inductive JobState where
  | registered
  | running
  | waiting
  | blocked
  | completed
  | failed
deriving DecidableEq, Repr

/-- A job record as persisted by the plugin (`JobRecord` in the source).
Optional descriptive fields are `Option`; timestamps are `Nat`
(milliseconds since epoch). `progress` is modelled as `Nat` (the tool
schema constrains it to [0,100]). -/
structure JobRecord where
  jobId : String
  title : Option String := none
  owner : Option String := none
  state : JobState := JobState.registered
  progress : Option Nat := none
  detail : Option String := none
  createdAt : Nat
  updatedAt : Nat
  lastActivityAt : Nat
deriving DecidableEq, Repr

/-- One line of the persisted `jobs.jsonl` file, abstracted at the JSON
boundary: `malformed` stands for a line on which `safeJsonParse` returns
`null` (or that parses to a non-record), `parsed j` for a line that
parses to the record `j`.  A parsed record whose `jobId` is the empty
string corresponds to a JSON object with a missing/empty `jobId` (both
are falsy in the source's `if (j?.jobId)` test). -/
inductive StoreLine where
  | malformed (raw : String)
  | parsed (j : JobRecord)
deriving DecidableEq, Repr

/-- The parse-and-filter loop of `readJobs`: skip unparseable lines and
parsed lines with a falsy `jobId`. -/
def parseJobs : List StoreLine → List JobRecord
  | [] => []
  | StoreLine.malformed _ :: rest => parseJobs rest
  | StoreLine.parsed j :: rest =>
      if j.jobId ≠ "" then j :: parseJobs rest else parseJobs rest

/-- One `Map.set` step of the latest-per-jobId reduction.  JS `Map.set`
keeps the original insertion position when the key is already present,
so an existing entry is replaced in place; a new key is appended. -/
def mapSet (m : List JobRecord) (j : JobRecord) : List JobRecord :=
  if m.any (fun x => x.jobId == j.jobId) then
    m.map (fun x => if x.jobId == j.jobId then j else x)
  else
    m ++ [j]

/-- Latest-per-jobId reduction (`const map = new Map(); for (const j of
jobs) map.set(j.jobId, j)`), values in key-insertion order. -/
def dedupLatest (jobs : List JobRecord) : List JobRecord :=
  jobs.foldl mapSet []

/-- Stable insertion of `x` before the first element it is `le`-below
or tied with. -/
def insertSorted {α : Type} (le : α → α → Bool) (x : α) : List α → List α
  | [] => [x]
  | y :: ys => if le x y then x :: y :: ys else y :: insertSorted le x ys

/-- Stable sort (insertion sort).  JS `Array.prototype.sort` is
specified only as a stable sort consistent with the comparator, which
this realizes for the comparator's `le` relation. -/
def sortBy {α : Type} (le : α → α → Bool) (l : List α) : List α :=
  l.foldr (insertSorted le) []

/-- `readJobs`: parse the persisted lines, keep the latest record per
`jobId`, and sort by `createdAt` ascending (the source's
`.sort((a, b) => a.createdAt - b.createdAt)`). -/
def readJobs (store : List StoreLine) : List JobRecord :=
  sortBy (fun a b => a.createdAt ≤ b.createdAt) (dedupLatest (parseJobs store))

/-- The patch accepted by `upsertJob` (`Partial<JobRecord> &
\x7b jobId: string \x7d`, restricted — as all call sites are — to the
caller-mutable fields of the report tool's schema).  A `none` field is
an absent key, which the object spread `\x7b...base, ...patch\x7d`
leaves at its prior value. -/
structure JobPatch where
  jobId : String
  title : Option String := none
  owner : Option String := none
  state : Option JobState := none
  progress : Option Nat := none
  detail : Option String := none
deriving DecidableEq, Repr

/-- The merge `\x7b ...base, ...patch \x7d`: fields present in the patch
overwrite, absent fields keep the base value. -/
def applyPatch (base : JobRecord) (p : JobPatch) : JobRecord :=
  { base with
    jobId := p.jobId
    title := p.title.or base.title
    owner := p.owner.or base.owner
    state := p.state.getD base.state
    progress := p.progress.or base.progress
    detail := p.detail.or base.detail }

/-- The synthesized default record for a first event (`prev ?? \x7b jobId,
state: "registered", createdAt: now(), ... \x7d`). -/
def defaultRecord (jobId : String) (t : Nat) : JobRecord :=
  { jobId := jobId
    state := JobState.registered
    createdAt := t
    updatedAt := t
    lastActivityAt := t }

/-- `upsertJob`: read the store, find the current record for the patch's
`jobId`, merge, stamp `updatedAt`/`lastActivityAt`, and append the merged
record as a new event.  Returns the new store content and the appended
record.  `t` is the value of `now()` during the call. -/
def upsertJob (store : List StoreLine) (p : JobPatch) (t : Nat) :
    List StoreLine × JobRecord :=
  let jobs := readJobs store
  let prev := jobs.find? (fun j => j.jobId == p.jobId)
  let base := prev.getD (defaultRecord p.jobId t)
  let next := { applyPatch base p with updatedAt := t, lastActivityAt := t }
  (store ++ [StoreLine.parsed next], next)

/-- Current-state lookup: the record `currentState()[jobId]`. -/
def currentRecord (store : List StoreLine) (jobId : String) : Option JobRecord :=
  (readJobs store).find? (fun j => j.jobId == jobId)

/-- The pending-escalation latch (`state.observeEscalation`). -/
structure EscSignal where
  pending : Bool
  forcedMention : String
  reason : String
  setAt : Nat
deriving DecidableEq, Repr

/-- The observation cursor and escalation counters (`state.observe`).
`counters` is the per-scope, per-agent cumulative counter table
(`Record<string, Record<string, number>>`), modelled as nested
association lists in JS-object insertion order. -/
structure ObserveSt where
  logPath : String
  pos : Nat
  lastSize : Nat
  lastEscalateAt : Nat
  lastEscalateReason : String
  counters : List (String × List (String × Nat))
deriving DecidableEq, Repr

/-- The plugin's persisted scheduler state (the `state` object in the
source).  The back-compat placeholder `observeLast` — reset on every
tick and read by nothing — is omitted.  `lastBriefContent` is `""` when
the field is absent (every read in the source applies `?? ""`). -/
structure PluginState where
  lastBriefAt : Nat
  lastNoMsgEscalationAt : Nat
  lastBriefContent : String
  observe : ObserveSt
  observeEscalation : EscSignal
deriving DecidableEq, Repr

/-- The state written by a confirmed reset (the literal in the reset
tool's handler; it carries no `lastBriefContent` key, read back as ""). -/
def resetPluginState : PluginState :=
  { lastBriefAt := 0
    lastNoMsgEscalationAt := 0
    lastBriefContent := ""
    observe :=
      { logPath := ""
        pos := 0
        lastSize := 0
        lastEscalateAt := 0
        lastEscalateReason := ""
        counters := [] }
    observeEscalation :=
      { pending := false
        forcedMention := ""
        reason := ""
        setAt := 0 } }

/-- The `progress_briefing_reset` tool handler: refuse unless the plugin
is enabled and `confirm` is exactly `true`; on a confirmed reset truncate
the jobs file and replace the state with the fresh literal.  `confirm`
is `Option Bool` (`none` = the key missing from the params object).
Returns the reply text and the resulting store and state. -/
def progressBriefingReset (enabled : Bool) (confirm : Option Bool)
    (store : List StoreLine) (st : PluginState) :
    String × List StoreLine × PluginState :=
  if !enabled then
    ("progress-briefing plugin disabled", store, st)
  else if confirm ≠ some true then
    ("Refusing to reset without confirm=true. This will delete stored jobs/state.",
      store, st)
  else
    ("ok: cleared progress-briefing jobs + state", [], resetPluginState)

/-- The characters of the header prefix matched by the scheduler's
header-stripping regex. -/
def headerTag : List Char := "[progress-briefing] ".data

/-- The regex replace `text.replace(re, "")` with `re` matching a
leading `[progress-briefing] ` followed by at least one non-newline
character and an optional newline, on the character list. -/
def stripHeaderList (cs : List Char) : List Char :=
  if headerTag.isPrefixOf cs then
    let rest := cs.drop headerTag.length
    let body := rest.takeWhile (fun c => c ≠ '\n')
    if body.isEmpty then cs
    else
      match rest.drop body.length with
      | '\n' :: tail => tail
      | tail => tail
  else cs

/-- Header stripping on strings, as used to compare rendered content
against the last-published content ignoring the timestamp header. -/
def stripHeader (s : String) : String :=
  String.mk (stripHeaderList s.data)

/-- `contentChanged`: the rendered text differs from the last-published
content once the leading timestamp header is stripped from both. -/
def contentChanged (st : PluginState) (text : String) : Bool :=
  stripHeader text != stripHeader st.lastBriefContent

/-- `timePassed`: at least `pollEveryMs` has elapsed since the last
publish (`now() - (state.lastBriefAt ?? 0) >= pollEveryMs`, compared in
`Int` to match JS number subtraction). -/
def timePassed (st : PluginState) (nowT pollEveryMs : Nat) : Bool :=
  (nowT : Int) - (st.lastBriefAt : Int) ≥ (pollEveryMs : Int)

/-- The scheduler's publish decision (`shouldPost` in `tick`): publish
if enough time has passed AND the content changed, OR an escalation
signal is pending. -/
def shouldPost (st : PluginState) (text : String) (nowT pollEveryMs : Nat) : Bool :=
  (timePassed st nowT pollEveryMs && contentChanged st text)
    || st.observeEscalation.pending

/-- The content actually posted: forced-mention prefix (the pending
escalation's mention wins over the configured default), then the
rendered text, then the escalation reason suffix when pending. -/
def postedContent (st : PluginState) (text : String) (defaultMention : String) :
    String :=
  let forcedMention :=
    if st.observeEscalation.pending then st.observeEscalation.forcedMention else ""
  let mention := if forcedMention ≠ "" then forcedMention else defaultMention
  let c1 := if mention ≠ "" then mention ++ "\n" ++ text else text
  if st.observeEscalation.pending ∧ st.observeEscalation.reason ≠ "" then
    c1 ++ "\n\n[escalation] " ++ st.observeEscalation.reason
  else c1

/-- Outcome of one scheduler tick's publish phase. -/
structure PublishResult where
  posted : Bool
  st : PluginState
deriving DecidableEq, Repr

/-- The publish phase of `tick` (after the observe pipeline): decide via
`shouldPost`; when posting, attempt the transport send (`sendOk = false`
models `discordSendText` throwing); a throw aborts the `try` block
before the latch is consumed or the last-publish markers are updated,
while on success the pending latch is cleared and `lastBriefAt` /
`lastBriefContent` are stamped.  When the transport is not configured
the send is skipped and the success path runs. -/
def publishStep (st : PluginState) (text : String)
    (nowT pollEveryMs : Nat) (transportConfigured sendOk : Bool) :
    PublishResult :=
  if !shouldPost st text nowT pollEveryMs then
    { posted := false, st := st }
  else if transportConfigured && !sendOk then
    { posted := false, st := st }
  else
    { posted := true
      st := { st with
        observeEscalation :=
          if st.observeEscalation.pending then
            { st.observeEscalation with pending := false }
          else st.observeEscalation
        lastBriefAt := nowT
        lastBriefContent := text } }

/-- The observation scope (`"flock" | "gateway"` in the config type). -/
inductive Scope where
  | flock
  | gateway
deriving DecidableEq, Repr

/-- The scope's string key, used to index `state.observe.counters`. -/
def scopeKey : Scope → String
  | Scope.flock => "flock"
  | Scope.gateway => "gateway"

/-- Raw substring / regex outcomes for one scanned log line.  Each field
abstracts exactly one `includes`/regex test from the source; the boolean
combinations of these tests are kept in the model (`countLine`). -/
structure LineClass where
  /-- `l.includes("HTTP 401")` -/
  http401 : Bool := false
  /-- `l.includes("authentication_error")` -/
  authenticationError : Bool := false
  /-- `l.includes("Invalid bearer token")` -/
  invalidBearerToken : Bool := false
  /-- `l.includes("Gateway HTTP 405")` -/
  gatewayHttp405 : Bool := false
  /-- regex `\bHTTP\s+405\b` test -/
  http405 : Bool := false
  /-- regex `\bHTTP\s+429\b` test -/
  http429 : Bool := false
  /-- `l.includes("rate_limit")` -/
  rateLimit : Bool := false
  /-- regex `\bHTTP\s+5\d\d\b` test -/
  http5xx : Bool := false
  /-- regex `\bGateway HTTP\s+5\d\d\b` test -/
  gatewayHttp5xx : Bool := false
  /-- `l.includes("[flock:executor]")` -/
  flockExecutor : Bool := false
  /-- `l.includes(" failed:")` -/
  failedColon : Bool := false
  /-- `l.includes("Exec failed")` -/
  execFailed : Bool := false
  /-- `l.includes("ExecFailed")` -/
  execFailedCamel : Bool := false
  /-- `l.includes("failed to load")` -/
  failedToLoad : Bool := false
deriving DecidableEq, Repr

/-- One scanned log line, abstracted at the regex boundary: `matched` is
the outcome of the `matches` filter (exclude patterns, explicit include
patterns, scope defaults), `agent` the outcome of `extractAgent` (the
empty string when no extraction pattern matched — the falsy value the
source tests with `if (agent)`), `cls` the per-signature raw tests. -/
structure ObsLine where
  matched : Bool
  agent : String
  cls : LineClass
deriving DecidableEq, Repr

/-- Key lookup in a JS `Map` / plain object modelled as an association
list. -/
def assocGet {β : Type} (m : List (String × β)) (k : String) :
    Option (String × β) :=
  m.find? (fun e => e.1 == k)

/-- `Map.set` / object property write: an existing key keeps its
insertion position; a new key is appended. -/
def assocSet {β : Type} (m : List (String × β)) (k : String) (v : β) :
    List (String × β) :=
  if m.any (fun e => e.1 == k) then
    m.map (fun e => if e.1 == k then (k, v) else e)
  else
    m ++ [(k, v)]

/-- Counter lookup (`m.get(k) ?? 0` / `m[k] ?? 0`). -/
def getCount (m : List (String × Nat)) (k : String) : Nat :=
  match assocGet m k with
  | some e => e.2
  | none => 0

/-- Counter write. -/
def setCount (m : List (String × Nat)) (k : String) (v : Nat) :
    List (String × Nat) :=
  assocSet m k v

/-- The detector's `bump`: `m.set(k, (m.get(k) ?? 0) + 1)`. -/
def bump (m : List (String × Nat)) (k : String) : List (String × Nat) :=
  setCount m k (getCount m k + 1)

/-- The escalation block's `bumpN`: add `n` to the cumulative counter of
`agentId`, guarded by `if (!agentId || n <= 0) return`. -/
def bumpN (m : List (String × Nat)) (agentId : String) (n : Nat) :
    List (String × Nat) :=
  if agentId = "" ∨ n = 0 then m
  else setCount m agentId (getCount m agentId + n)

/-- Per-scope lookup into `state.observe.counters`
(`state.observe.counters[scope] ?? \x7b\x7d`; the `??=` store-back is
subsumed by the unconditional store-back at the end of the escalation
block). -/
def getScope (cs : List (String × List (String × Nat))) (k : String) :
    List (String × Nat) :=
  match assocGet cs k with
  | some e => e.2
  | none => []

/-- Per-scope store into `state.observe.counters`. -/
def setScope (cs : List (String × List (String × Nat))) (k : String)
    (v : List (String × Nat)) : List (String × List (String × Nat)) :=
  assocSet cs k v

/-- The per-tick counts and per-agent attribution maps accumulated by
the detector's line loop. -/
structure TickCounts where
  count401 : Nat := 0
  count405 : Nat := 0
  count429 : Nat := 0
  count5xx : Nat := 0
  countExecutorFailed : Nat := 0
  countExecFailed : Nat := 0
  countPluginLoadFailed : Nat := 0
  agents401 : List (String × Nat) := []
  agents405 : List (String × Nat) := []
  agents429 : List (String × Nat) := []
  agents5xx : List (String × Nat) := []
  agentsExecutorFailed : List (String × Nat) := []
deriving DecidableEq, Repr

/-- `if (is401) \x7b count401++; if (agent) bump(agents401, agent); \x7d` -/
def step401 (is401 : Bool) (agent : String) (tc : TickCounts) : TickCounts :=
  if is401 then
    { tc with count401 := tc.count401 + 1
              agents401 := if agent ≠ "" then bump tc.agents401 agent else tc.agents401 }
  else tc

/-- `if (is405) \x7b count405++; if (agent) bump(agents405, agent); \x7d` -/
def step405 (is405 : Bool) (agent : String) (tc : TickCounts) : TickCounts :=
  if is405 then
    { tc with count405 := tc.count405 + 1
              agents405 := if agent ≠ "" then bump tc.agents405 agent else tc.agents405 }
  else tc

/-- `if (is429) \x7b count429++; if (agent) bump(agents429, agent); \x7d` -/
def step429 (is429 : Bool) (agent : String) (tc : TickCounts) : TickCounts :=
  if is429 then
    { tc with count429 := tc.count429 + 1
              agents429 := if agent ≠ "" then bump tc.agents429 agent else tc.agents429 }
  else tc

/-- `if (is5xx) \x7b count5xx++; if (agent) bump(agents5xx, agent); \x7d` -/
def step5xx (is5xx : Bool) (agent : String) (tc : TickCounts) : TickCounts :=
  if is5xx then
    { tc with count5xx := tc.count5xx + 1
              agents5xx := if agent ≠ "" then bump tc.agents5xx agent else tc.agents5xx }
  else tc

/-- `if (isExecFail) \x7b countExecutorFailed++; if (agent)
bump(agentsExecutorFailed, agent); \x7d` -/
def stepExecutorFailed (isExecFail : Bool) (agent : String) (tc : TickCounts) :
    TickCounts :=
  if isExecFail then
    { tc with countExecutorFailed := tc.countExecutorFailed + 1
              agentsExecutorFailed :=
                if agent ≠ "" then bump tc.agentsExecutorFailed agent
                else tc.agentsExecutorFailed }
  else tc

/-- `if (isExecToolFail) countExecFailed++;` -/
def stepExecFailed (isExecToolFail : Bool) (tc : TickCounts) : TickCounts :=
  if isExecToolFail then { tc with countExecFailed := tc.countExecFailed + 1 } else tc

/-- `if (isPluginLoadFail) countPluginLoadFailed++;` -/
def stepPluginLoadFailed (isPluginLoadFail : Bool) (tc : TickCounts) : TickCounts :=
  if isPluginLoadFail then
    { tc with countPluginLoadFailed := tc.countPluginLoadFailed + 1 }
  else tc

/-- One iteration of the detector's line loop: skip unmatched lines,
classify, increment totals, and bump the per-agent map only when the
line is attributed (`if (agent) bump(...)`).  Executor / tool / plugin
failures are only counted in flock scope.  The seven guarded updates of
the source's loop body run in source order via the step functions. -/
def countLine (scope : Scope) (tc : TickCounts) (l : ObsLine) : TickCounts :=
  if !l.matched then tc
  else
    let agent := l.agent
    let is401 := l.cls.http401 || l.cls.authenticationError || l.cls.invalidBearerToken
    let is405 := l.cls.gatewayHttp405 || l.cls.http405
    let is429 := l.cls.http429 || l.cls.rateLimit
    let is5xx := l.cls.http5xx || l.cls.gatewayHttp5xx
    let isExecFail := scope == Scope.flock && (l.cls.flockExecutor && l.cls.failedColon)
    let isExecToolFail := scope == Scope.flock && (l.cls.execFailed || l.cls.execFailedCamel)
    let isPluginLoadFail := scope == Scope.flock && l.cls.failedToLoad
    stepPluginLoadFailed isPluginLoadFail
      (stepExecFailed isExecToolFail
        (stepExecutorFailed isExecFail agent
          (step5xx is5xx agent
            (step429 is429 agent
              (step405 is405 agent
                (step401 is401 agent tc))))))

/-- The five per-agent attribution maps of a tick count record, bundled
for invariant statements. -/
def agentMaps (tc : TickCounts) :
    List (String × Nat) × List (String × Nat) × List (String × Nat) ×
      List (String × Nat) × List (String × Nat) :=
  (tc.agents401, tc.agents405, tc.agents429, tc.agents5xx, tc.agentsExecutorFailed)

/-- The detector's line loop over the batch of newly read lines. -/
def countLines (scope : Scope) (lines : List ObsLine) : TickCounts :=
  lines.foldl (countLine scope) {}

/-- The early-return test: every per-tick count is zero. -/
def allZero (tc : TickCounts) : Bool :=
  tc.count401 == 0 && tc.count405 == 0 && tc.count429 == 0 && tc.count5xx == 0 &&
  tc.countExecutorFailed == 0 && tc.countExecFailed == 0 && tc.countPluginLoadFailed == 0

/-- The health-job state for a tick that got past the early return
(`blocked` if any count is nonzero, else `running`; the `running` branch
is unreachable because of the early return). -/
def tickStateStr (tc : TickCounts) : JobState :=
  if tc.count401 ≠ 0 ∨ tc.count405 ≠ 0 ∨ tc.count429 ≠ 0 ∨ tc.count5xx ≠ 0 ∨
      tc.countExecutorFailed ≠ 0 ∨ tc.countExecFailed ≠ 0 ∨ tc.countPluginLoadFailed ≠ 0
  then JobState.blocked
  else JobState.running

/-- Insertion-order deduplication, the semantics of spreading iterables
into a JS `Set` and iterating it. -/
def dedupFirstAux (seen : List String) : List String → List String
  | [] => []
  | k :: rest =>
      if k ∈ seen then dedupFirstAux seen rest
      else k :: dedupFirstAux (k :: seen) rest

/-- Key union `new Set([...a.keys(), ...b.keys(), ...])` in insertion
order. -/
def keysUnion (ms : List (List (String × Nat))) : List String :=
  dedupFirstAux [] (ms.foldl (fun acc m => acc ++ m.map Prod.fst) [])

/-- The key union built for the per-agent jobs block (its source order:
401, executorFailed, 405, 429, 5xx). -/
def tickAgentsPerJob (tc : TickCounts) : List String :=
  keysUnion [tc.agents401, tc.agentsExecutorFailed, tc.agents405, tc.agents429, tc.agents5xx]

/-- The key union built for the escalation block (its source order:
401, 405, 429, 5xx, executorFailed). -/
def tickAgentsEsc (tc : TickCounts) : List String :=
  keysUnion [tc.agents401, tc.agents405, tc.agents429, tc.agents5xx, tc.agentsExecutorFailed]

/-- The five `bumpN` calls the escalation block performs for one agent
of the key union. -/
def bumpAgent (tc : TickCounts) (m : List (String × Nat)) (agentId : String) :
    List (String × Nat) :=
  let m := bumpN m agentId (getCount tc.agents401 agentId)
  let m := bumpN m agentId (getCount tc.agents405 agentId)
  let m := bumpN m agentId (getCount tc.agents429 agentId)
  let m := bumpN m agentId (getCount tc.agents5xx agentId)
  bumpN m agentId (getCount tc.agentsExecutorFailed agentId)

/-- The cumulative per-agent counters after this tick's counts have been
added (`for (const agentId of agents) \x7b bumpN(...) ... \x7d`). -/
def bumpedCounters (scopeCounters : List (String × Nat)) (tc : TickCounts) :
    List (String × Nat) :=
  (tickAgentsEsc tc).foldl (bumpAgent tc) scopeCounters

/-- The offender scan: maximum cumulative count under strict `>`, so the
first-encountered maximum wins and the initial value is `("", 0)`. -/
def maxEntry (m : List (String × Nat)) : String × Nat :=
  m.foldl (fun p e => if e.2 > p.2 then e else p) ("", 0)

/-- The escalation reason string. -/
def escReason (threshold : Nat) (offender : String) (offenderCount : Nat) : String :=
  "error threshold hit: >=" ++ toString threshold ++ " (offender=" ++ offender ++
    ", cumulative=" ++ toString offenderCount ++ ")"

/-- Resolved observation configuration (defaults `??`-applied as in the
source: scope `gateway`, maxBytes 1MB, minCount 1, threshold 3, cooldown
5 minutes, mention `@here`; the three `enabled` flags are the source's
strict `=== true` / `!== false` outcomes). -/
structure ObserveCfg where
  enabled : Bool
  scope : Scope
  maxBytes : Nat
  perAgentEnabled : Bool
  minCount : Nat
  escEnabled : Bool
  threshold : Nat
  cooldownMs : Nat
  mention : String
deriving DecidableEq, Repr

/-- Result of the escalation block. -/
structure EscStepResult where
  scopeCounters : List (String × Nat)
  lastEscalateAt : Nat
  lastEscalateReason : String
  signal : EscSignal
  fired : Bool
deriving DecidableEq, Repr

/-- The escalation block: add this tick's per-agent counts to the
cumulative counters, find the offender (max cumulative count), and fire
when the offender count reaches the threshold and the cooldown has
elapsed; on firing latch the signal, stamp the cooldown timer and clamp
the offender's counter to exactly the threshold. -/
def escalateStep (cfg : ObserveCfg) (scopeCounters : List (String × Nat))
    (tc : TickCounts) (lastEscalateAt : Nat) (prevReason : String)
    (signal : EscSignal) (nowT : Nat) : EscStepResult :=
  let cs := bumpedCounters scopeCounters tc
  let off := maxEntry cs
  let shouldEscalate := cfg.threshold ≤ off.2
  let cooledDown := (nowT : Int) - (lastEscalateAt : Int) ≥ (cfg.cooldownMs : Int)
  if shouldEscalate ∧ cooledDown then
    let reason := escReason cfg.threshold off.1 off.2
    { scopeCounters := if off.1 ≠ "" then setCount cs off.1 cfg.threshold else cs
      lastEscalateAt := nowT
      lastEscalateReason := reason
      signal := { pending := true, forcedMention := cfg.mention, reason := reason, setAt := nowT }
      fired := true }
  else
    { scopeCounters := cs
      lastEscalateAt := lastEscalateAt
      lastEscalateReason := prevReason
      signal := signal
      fired := false }

/-- Result of the tailer's cursor/read arithmetic for one poll of an
existing file. -/
structure TailerResult where
  readStart : Nat
  bytesToRead : Nat
  newLogPath : String
  newPos : Nat
  newLastSize : Nat
deriving DecidableEq, Repr

/-- The log tailer's cursor step for a poll where the file exists:
reset the cursor to `max(0, size - maxBytes)` when the path changed or
the file shrank; read `min(maxBytes, max(0, end - start))` bytes from
`max(0, end - bytesToRead)`; then advance the cursor to the new size.
`Math.max(0, a - b)` on non-negative JS numbers is `Nat` truncated
subtraction. -/
def tailerStep (stLogPath : String) (stPos : Nat) (logPath : String)
    (size maxBytes : Nat) : TailerResult :=
  let pos0 := if stLogPath ≠ logPath ∨ size < stPos then size - maxBytes else stPos
  let start := pos0
  let stop := size
  let bytesToRead := min maxBytes (stop - start)
  let readStart := stop - bytesToRead
  { readStart := readStart
    bytesToRead := bytesToRead
    newLogPath := logPath
    newPos := stop
    newLastSize := size }

/-- `baseJobId`: the scope's synthetic health-job key. -/
def baseJobId : Scope → String
  | Scope.gateway => "gateway:health"
  | Scope.flock => "flock:health"

/-- `baseTitle`: the scope's synthetic health-job title. -/
def baseTitle : Scope → String
  | Scope.gateway => "Gateway health (auto)"
  | Scope.flock => "Flock health (auto)"

/-- `baseJobId.replace(/:health$/, ":agent")`, evaluated on the two
possible constants. -/
def agentJobIdBase : Scope → String
  | Scope.gateway => "gateway:agent"
  | Scope.flock => "flock:agent"

/-- `baseTitle.replace(" health (auto)", " agent health")`, evaluated on
the two possible constants. -/
def agentTitleBase : Scope → String
  | Scope.gateway => "Gateway agent health"
  | Scope.flock => "Flock agent health"

/-- `fmtMap`: agent map entries sorted by count descending (stable, as
JS sort), rendered `k(v)` and joined with `", "`. -/
def fmtMap (m : List (String × Nat)) : String :=
  String.intercalate ", "
    ((sortBy (fun a b => b.2 ≤ a.2) m).map
      (fun e => e.1 ++ "(" ++ toString e.2 ++ ")"))

/-- One `detailParts` entry: `label=count` with the agent breakdown in
brackets when any attribution exists. -/
def detailPart (label : String) (c : Nat) (agents : List (String × Nat)) : String :=
  let a := fmtMap agents
  label ++ "=" ++ toString c ++ (if a ≠ "" then " [" ++ a ++ "]" else "")

/-- The `detailParts` list pushed for the base health job, in source
order (401, 405, 429, 5xx, executorFailed, execFailed,
pluginLoadFailed), each present only when its count is truthy. -/
def detailParts (tc : TickCounts) : List String :=
  (if tc.count401 ≠ 0 then [detailPart "401" tc.count401 tc.agents401] else []) ++
  (if tc.count405 ≠ 0 then [detailPart "405" tc.count405 tc.agents405] else []) ++
  (if tc.count429 ≠ 0 then [detailPart "429" tc.count429 tc.agents429] else []) ++
  (if tc.count5xx ≠ 0 then [detailPart "5xx" tc.count5xx tc.agents5xx] else []) ++
  (if tc.countExecutorFailed ≠ 0 then
    [detailPart "executorFailed" tc.countExecutorFailed tc.agentsExecutorFailed] else []) ++
  (if tc.countExecFailed ≠ 0 then ["execFailed=" ++ toString tc.countExecFailed] else []) ++
  (if tc.countPluginLoadFailed ≠ 0 then
    ["pluginLoadFailed=" ++ toString tc.countPluginLoadFailed] else [])

/-- The `waiting` upsert issued when the log file does not exist. -/
def waitingPatch (scope : Scope) (logPath : String) : JobPatch :=
  { jobId := baseJobId scope
    title := some (baseTitle scope)
    owner := some "observe"
    state := some JobState.waiting
    detail := some ("gateway log not found: " ++ logPath) }

/-- The base health-job upsert issued at the end of a tick that observed
at least one qualifying count. -/
def basePatch (scope : Scope) (tc : TickCounts) : JobPatch :=
  { jobId := baseJobId scope
    title := some (baseTitle scope)
    owner := some "observe"
    state := some (tickStateStr tc)
    detail := some ("Detected " ++ scopeKey scope ++ " errors in gateway logs: " ++
      String.intercalate ", " (detailParts tc)) }

/-- The per-agent total used by the per-agent jobs block
(`c401 + cExec + c405 + c429 + c5xx`). -/
def perAgentTotal (tc : TickCounts) (agent : String) : Nat :=
  getCount tc.agents401 agent + getCount tc.agentsExecutorFailed agent +
    getCount tc.agents405 agent + getCount tc.agents429 agent +
    getCount tc.agents5xx agent

/-- The per-agent health-job upsert (detail parts in source order: 401,
429, 5xx, executorFailed, 405). -/
def perAgentPatch (scope : Scope) (tc : TickCounts) (agent : String) : JobPatch :=
  let c401 := getCount tc.agents401 agent
  let cExec := getCount tc.agentsExecutorFailed agent
  let c405 := getCount tc.agents405 agent
  let c429 := getCount tc.agents429 agent
  let c5xx := getCount tc.agents5xx agent
  let parts :=
    (if c401 ≠ 0 then ["401=" ++ toString c401] else []) ++
    (if c429 ≠ 0 then ["429=" ++ toString c429] else []) ++
    (if c5xx ≠ 0 then ["5xx=" ++ toString c5xx] else []) ++
    (if cExec ≠ 0 then ["executorFailed=" ++ toString cExec] else []) ++
    (if c405 ≠ 0 then ["405=" ++ toString c405] else [])
  { jobId := agentJobIdBase scope ++ ":" ++ agent
    title := some (agentTitleBase scope ++ ": " ++ agent ++ " (auto)")
    owner := some "observe"
    state := some JobState.blocked
    detail := some (String.intercalate ", " parts) }

/-- The per-agent jobs block: when enabled, one `blocked` upsert per
attributed agent whose per-tick total reaches `minCount`. -/
def perAgentPatches (cfg : ObserveCfg) (tc : TickCounts) : List JobPatch :=
  if !cfg.perAgentEnabled then []
  else
    ((tickAgentsPerJob tc).filter
      (fun a => cfg.minCount ≤ perAgentTotal tc a)).map (perAgentPatch cfg.scope tc)

/-- Per-tick input to `observeFromGatewayLogs`: the target path for this
tick, whether the file exists and its size, the classification of the
lines decoded from the bytes read, and the tick's clock value. -/
structure ObserveInput where
  logPath : String
  fileExists : Bool
  size : Nat
  lines : List ObsLine
  nowT : Nat
deriving DecidableEq, Repr

/-- Result of one `observeFromGatewayLogs` call: the new plugin state,
the `upsertJob` calls it issued in order, and whether the escalation
branch fired. -/
structure ObserveResult where
  st : PluginState
  patches : List JobPatch
  fired : Bool
deriving DecidableEq, Repr

/-- One `observeFromGatewayLogs` call.  Control flow as in the source:
disabled → nothing; file missing → a single `waiting` upsert, cursor and
escalation state untouched; otherwise update the cursor, count the
lines, and return early with no upsert when every count is zero;
otherwise emit the per-agent upserts, run the escalation block when
enabled, and finish with the base health-job upsert. -/
def observeTick (cfg : ObserveCfg) (st : PluginState) (inp : ObserveInput) :
    ObserveResult :=
  if !cfg.enabled then { st := st, patches := [], fired := false }
  else if !inp.fileExists then
    { st := st, patches := [waitingPatch cfg.scope inp.logPath], fired := false }
  else
    let tr := tailerStep st.observe.logPath st.observe.pos inp.logPath inp.size cfg.maxBytes
    let ob1 := { st.observe with
      logPath := tr.newLogPath, pos := tr.newPos, lastSize := tr.newLastSize }
    let tc := countLines cfg.scope inp.lines
    if allZero tc then
      { st := { st with observe := ob1 }, patches := [], fired := false }
    else
      let perAgent := perAgentPatches cfg tc
      if cfg.escEnabled then
        let sc := getScope ob1.counters (scopeKey cfg.scope)
        let es := escalateStep cfg sc tc ob1.lastEscalateAt ob1.lastEscalateReason
          st.observeEscalation inp.nowT
        let ob2 := { ob1 with
          counters := setScope ob1.counters (scopeKey cfg.scope) es.scopeCounters
          lastEscalateAt := es.lastEscalateAt
          lastEscalateReason := es.lastEscalateReason }
        { st := { st with observe := ob2, observeEscalation := es.signal }
          patches := perAgent ++ [basePatch cfg.scope tc]
          fired := es.fired }
      else
        { st := { st with observe := ob1 }
          patches := perAgent ++ [basePatch cfg.scope tc]
          fired := false }

/-- A sequence of observation ticks, threading the plugin state. -/
def runObserve (cfg : ObserveCfg) (st : PluginState) (inps : List ObserveInput) :
    PluginState :=
  inps.foldl (fun s i => (observeTick cfg s i).st) st

/-- A persisted line survives the read filter iff it parses and carries
a truthy `jobId`. -/
def isWellFormed : StoreLine → Bool
  | StoreLine.malformed _ => false
  | StoreLine.parsed j => j.jobId != ""

/-- A sequence of `upsertJob` calls (each paired with its `now()`),
threading the store. -/
def applyUpserts (store : List StoreLine) (ups : List (JobPatch × Nat)) :
    List StoreLine :=
  ups.foldl (fun s q => (upsertJob s q.1 q.2).1) store

/-- Example configuration: gateway scope, escalation enabled with
threshold 3, cooldown 1000 ms, mention `@here`. -/
def exCfg : ObserveCfg :=
  { enabled := true, scope := Scope.gateway, maxBytes := 1000,
    perAgentEnabled := false, minCount := 1, escEnabled := true,
    threshold := 3, cooldownMs := 1000, mention := "@here" }

/-- Example configuration with a zero escalation threshold. -/
def exCfgThr0 : ObserveCfg := { exCfg with threshold := 0 }

/-- Example state whose gateway-scope counters already hold `pm ↦ 3`
(e.g. the clamped value after a previous escalation). -/
def exStPm3 : PluginState :=
  { resetPluginState with
    observe := { resetPluginState.observe with counters := [("gateway", [("pm", 3)])] } }

/-- Example state whose gateway-scope counters hold `pm ↦ 2`. -/
def exStPm2 : PluginState :=
  { resetPluginState with
    observe := { resetPluginState.observe with counters := [("gateway", [("pm", 2)])] } }

/-- Example matched log line: an HTTP 401 attributed to agent `pm`. -/
def exLine401pm : ObsLine :=
  { matched := true, agent := "pm", cls := { http401 := true } }

/-- Example matched log line: an HTTP 401 with no extractable agent. -/
def exLine401anon : ObsLine :=
  { matched := true, agent := "", cls := { http401 := true } }

/-!  Helper lemmas about the store reduction. -/

theorem insertSorted_perm {α : Type} (le : α → α → Bool) (x : α) (l : List α) :
    (insertSorted le x l).Perm (x :: l) := by
  induction l with
  | nil => exact List.Perm.refl _
  | cons y ys ih =>
    by_cases h : le x y
    · simp [insertSorted, h]
    · simp only [insertSorted, h, if_neg, Bool.false_eq_true, not_false_eq_true]
      exact (ih.cons y).trans (List.Perm.swap x y ys)

theorem sortBy_perm {α : Type} (le : α → α → Bool) (l : List α) :
    (sortBy le l).Perm l := by
  induction l with
  | nil => exact List.Perm.refl _
  | cons x xs ih =>
    exact (insertSorted_perm le x (sortBy le xs)).trans (ih.cons x)

theorem mem_sortBy {α : Type} {le : α → α → Bool} {x : α} {l : List α} :
    x ∈ sortBy le l ↔ x ∈ l :=
  (sortBy_perm le l).mem_iff

theorem mem_mapSet_self (m : List JobRecord) (j : JobRecord) : j ∈ mapSet m j := by
  unfold mapSet
  split
  · rename_i h
    rw [List.any_eq_true] at h
    obtain ⟨x, hx, heq⟩ := h
    rw [List.mem_map]
    exact ⟨x, hx, by simp [heq]⟩
  · simp

theorem mapSet_jobId_eq (m : List JobRecord) (j : JobRecord) :
    ∀ x ∈ mapSet m j, x.jobId = j.jobId → x = j := by
  unfold mapSet
  split
  · intro x hx hidx
    rw [List.mem_map] at hx
    obtain ⟨y, hy, rfl⟩ := hx
    by_cases h : y.jobId == j.jobId
    · simp [h]
    · simp only [h, Bool.false_eq_true, if_neg, not_false_eq_true] at hidx ⊢
      exact absurd hidx (by simpa using h)
  · rename_i h
    intro x hx hidx
    rcases List.mem_append.mp hx with h1 | h1
    · exfalso
      rw [List.any_eq_true] at h
      exact h ⟨x, h1, by simpa using hidx⟩
    · simpa using h1

theorem find?_jobId_unique (l : List JobRecord) (j : JobRecord)
    (hmem : j ∈ l) (huniq : ∀ x ∈ l, x.jobId = j.jobId → x = j) :
    l.find? (fun x => x.jobId == j.jobId) = some j := by
  induction l with
  | nil => cases hmem
  | cons y ys ih =>
    by_cases h : y.jobId == j.jobId
    · have hy : y = j := huniq y (List.mem_cons_self y ys) (by simpa using h)
      simp [List.find?, h, hy]
    · have hmem' : j ∈ ys := by
        rcases List.mem_cons.mp hmem with rfl | hm
        · exact absurd (by simp : j.jobId == j.jobId) h
        · exact hm
      simp only [List.find?, h]
      exact ih hmem' (fun x hx => huniq x (List.mem_cons_of_mem y hx))

theorem parseJobs_append (xs ys : List StoreLine) :
    parseJobs (xs ++ ys) = parseJobs xs ++ parseJobs ys := by
  induction xs with
  | nil => rfl
  | cons l rest ih =>
    cases l with
    | malformed raw => simpa [parseJobs] using ih
    | parsed j =>
      by_cases h : j.jobId = "" <;> simp [parseJobs, h, ih]

theorem dedupLatest_append_single (xs : List JobRecord) (j : JobRecord) :
    dedupLatest (xs ++ [j]) = mapSet (dedupLatest xs) j := by
  simp [dedupLatest, List.foldl_append]

theorem currentRecord_append_parsed (store : List StoreLine) (j : JobRecord)
    (h : j.jobId ≠ "") :
    currentRecord (store ++ [StoreLine.parsed j]) j.jobId = some j := by
  unfold currentRecord readJobs
  rw [parseJobs_append]
  have hsingle : parseJobs [StoreLine.parsed j] = [j] := by simp [parseJobs, h]
  rw [hsingle, dedupLatest_append_single]
  exact find?_jobId_unique _ j (mem_sortBy.mpr (mem_mapSet_self _ _))
    (fun x hx => mapSet_jobId_eq _ _ x (mem_sortBy.mp hx))

theorem upsertJob_snd_jobId (store : List StoreLine) (p : JobPatch) (t : Nat) :
    (upsertJob store p t).2.jobId = p.jobId := rfl

theorem currentRecord_upsert (store : List StoreLine) (p : JobPatch) (t : Nat)
    (h : p.jobId ≠ "") :
    currentRecord (upsertJob store p t).1 p.jobId = some (upsertJob store p t).2 := by
  have hj : (upsertJob store p t).2.jobId = p.jobId := rfl
  have := currentRecord_append_parsed store (upsertJob store p t).2 (by rw [hj]; exact h)
  rw [hj] at this
  exact this

theorem upsert_step_existing (store : List StoreLine) (p : JobPatch) (t : Nat)
    (b : JobRecord) (hprev : currentRecord store p.jobId = some b) :
    (upsertJob store p t).2 =
      { applyPatch b p with updatedAt := t, lastActivityAt := t } := by
  have hfind : (readJobs store).find? (fun j => j.jobId == p.jobId) = some b := hprev
  simp [upsertJob, hfind]

theorem upsert_step_fresh (store : List StoreLine) (p : JobPatch) (t : Nat)
    (hprev : currentRecord store p.jobId = none) :
    (upsertJob store p t).2 =
      { applyPatch (defaultRecord p.jobId t) p with
          updatedAt := t, lastActivityAt := t } := by
  have hfind : (readJobs store).find? (fun j => j.jobId == p.jobId) = none := hprev
  simp [upsertJob, hfind]

theorem applyPatch_createdAt (b : JobRecord) (p : JobPatch) :
    (applyPatch b p).createdAt = b.createdAt := rfl

theorem createdAt_preserved (ups : List (JobPatch × Nat)) :
    ∀ (store : List StoreLine) (id : String), id ≠ "" →
    ∀ r : JobRecord, currentRecord store id = some r →
    (∀ u ∈ ups, u.1.jobId = id) →
    ∃ r', currentRecord (applyUpserts store ups) id = some r' ∧
      r'.createdAt = r.createdAt := by
  induction ups with
  | nil => exact fun store id _ r hr _ => ⟨r, hr, rfl⟩
  | cons u rest ih =>
    intro store id hid r hr hups
    have hq : u.1.jobId = id := hups u (List.mem_cons_self u rest)
    have hprev : currentRecord store u.1.jobId = some r := by rw [hq]; exact hr
    have hcur : currentRecord (upsertJob store u.1 u.2).1 u.1.jobId =
        some (upsertJob store u.1 u.2).2 :=
      currentRecord_upsert store u.1 u.2 (by rw [hq]; exact hid)
    have hnext : (upsertJob store u.1 u.2).2 =
        { applyPatch r u.1 with updatedAt := u.2, lastActivityAt := u.2 } :=
      upsert_step_existing store u.1 u.2 r hprev
    have hstep : currentRecord (upsertJob store u.1 u.2).1 id =
        some (upsertJob store u.1 u.2).2 := by rw [← hq]; exact hcur
    have happ : applyUpserts store (u :: rest) =
        applyUpserts (upsertJob store u.1 u.2).1 rest := rfl
    rw [happ]
    obtain ⟨r', hcur', hcre⟩ := ih (upsertJob store u.1 u.2).1 id hid
      (upsertJob store u.1 u.2).2 hstep
      (fun v hv => hups v (List.mem_cons_of_mem u hv))
    refine ⟨r', hcur', ?_⟩
    rw [hcre, hnext]
    exact applyPatch_createdAt r u.1

/-- Claim C6: starting from a store with no current record for a
`jobId`, any non-empty sequence of `upsert` calls on that `jobId` yields
a current record whose `createdAt` equals the timestamp of the first
call, regardless of how many subsequent calls occur. -/
theorem createdAt_first_call (store : List StoreLine) (id : String) (hid : id ≠ "")
    (h0 : currentRecord store id = none)
    (q : JobPatch × Nat) (ups : List (JobPatch × Nat))
    (hq : q.1.jobId = id) (hups : ∀ u ∈ ups, u.1.jobId = id) :
    ∃ r, currentRecord (applyUpserts store (q :: ups)) id = some r ∧
      r.createdAt = q.2 := by
  have hprev : currentRecord store q.1.jobId = none := by rw [hq]; exact h0
  have hcur : currentRecord (upsertJob store q.1 q.2).1 q.1.jobId =
      some (upsertJob store q.1 q.2).2 :=
    currentRecord_upsert store q.1 q.2 (by rw [hq]; exact hid)
  have hnext : (upsertJob store q.1 q.2).2 =
      { applyPatch (defaultRecord q.1.jobId q.2) q.1 with
          updatedAt := q.2, lastActivityAt := q.2 } :=
    upsert_step_fresh store q.1 q.2 hprev
  have hcre : (upsertJob store q.1 q.2).2.createdAt = q.2 := by
    rw [hnext]
    exact applyPatch_createdAt _ _
  have hstep : currentRecord (upsertJob store q.1 q.2).1 id =
      some (upsertJob store q.1 q.2).2 := by rw [← hq]; exact hcur
  have happ : applyUpserts store (q :: ups) =
      applyUpserts (upsertJob store q.1 q.2).1 ups := rfl
  rw [happ]
  obtain ⟨r', hcur', hcre'⟩ := createdAt_preserved ups (upsertJob store q.1 q.2).1 id hid
    (upsertJob store q.1 q.2).2 hstep hups
  exact ⟨r', hcur', by rw [hcre', hcre]⟩

/-- Witness for C6: two concrete upserts on `"j"` starting from the
empty store; the current record keeps the first call's timestamp 5. -/
theorem createdAt_first_call_witness :
    ∃ r, currentRecord
        (applyUpserts [] [({ jobId := "j" }, 5),
          ({ jobId := "j", progress := some 1 }, 9)]) "j" = some r ∧
      r.createdAt = 5 := by
  exact createdAt_first_call [] "j" (by decide) (by decide)
    ({ jobId := "j" }, 5) [({ jobId := "j", progress := some 1 }, 9)]
    rfl (by decide)

/-- Claim C7: an `upsert` supplying only a subset of fields leaves every
unsupplied field of the resulting current record at its immediately
prior value, while supplied fields overwrite. -/
theorem upsert_partial_patch (store : List StoreLine) (p : JobPatch) (t : Nat)
    (hid : p.jobId ≠ "") (b : JobRecord)
    (hprev : currentRecord store p.jobId = some b) :
    ∃ r, currentRecord (upsertJob store p t).1 p.jobId = some r ∧
      (p.title = none → r.title = b.title) ∧
      (p.owner = none → r.owner = b.owner) ∧
      (p.state = none → r.state = b.state) ∧
      (p.progress = none → r.progress = b.progress) ∧
      (p.detail = none → r.detail = b.detail) ∧
      (∀ v, p.title = some v → r.title = some v) ∧
      (∀ v, p.state = some v → r.state = v) ∧
      (∀ v, p.progress = some v → r.progress = some v) ∧
      r.createdAt = b.createdAt := by
  refine ⟨(upsertJob store p t).2, currentRecord_upsert store p t hid, ?_⟩
  have hnext : (upsertJob store p t).2 =
      { applyPatch b p with updatedAt := t, lastActivityAt := t } :=
    upsert_step_existing store p t b hprev
  rw [hnext]
  refine ⟨?_, ?_, ?_, ?_, ?_, ?_, ?_, ?_, rfl⟩ <;>
    first
      | (intro h; simp [applyPatch, h])
      | (intro v h; simp [applyPatch, h])

/-- Witness for C7: the spec's end-to-end scenario — report
`build-1` running at 10 percent, then patch only `progress := 90`; the
result keeps `state = running` and has `progress = 90`. -/
theorem upsert_partial_patch_witness :
    ∃ r, currentRecord
          (upsertJob
            (upsertJob []
              { jobId := "build-1", state := some JobState.running, progress := some 10 }
              100).1
            { jobId := "build-1", progress := some 90 } 200).1 "build-1" = some r ∧
      r.state = JobState.running ∧ r.progress = some 90 := by
  obtain ⟨r, hcur, _, _, hstate, _, _, _, _, hprog, _⟩ :=
    upsert_partial_patch
      (upsertJob []
        { jobId := "build-1", state := some JobState.running, progress := some 10 }
        100).1
      { jobId := "build-1", progress := some 90 } 200 (by decide)
      { jobId := "build-1", state := JobState.running, progress := some 10, createdAt := 100, updatedAt := 100, lastActivityAt := 100 }
      (by decide)
  exact ⟨r, hcur, by rw [hstate rfl], hprog 90 rfl⟩

theorem parseJobs_filter (store : List StoreLine) :
    parseJobs (store.filter isWellFormed) = parseJobs store := by
  induction store with
  | nil => rfl
  | cons l rest ih =>
    cases l with
    | malformed raw => simpa [isWellFormed, parseJobs] using ih
    | parsed j =>
      by_cases h : j.jobId = "" <;>
        simp [isWellFormed, parseJobs, h, ih]

/-- Claim C9: reading the store skips every malformed line and every
parsed line lacking a `jobId`, and returns exactly the reduction of the
well-formed lines; a bad line never affects the result (and `readJobs`
is a total function — no input makes it raise). -/
theorem readJobs_corruption_tolerant (store : List StoreLine) :
    readJobs store = readJobs (store.filter isWellFormed) := by
  simp [readJobs, parseJobs_filter]

/-- Claim C8: with the plugin enabled, reset without `confirm` exactly
`true` returns the refusal text and leaves the stored jobs and the
scheduler/escalation state unchanged; reset with `confirm` exactly
`true` reports success and leaves zero jobs in the reduced current
state. -/
theorem reset_confirmation_gate (confirm : Option Bool) (store : List StoreLine)
    (st : PluginState) :
    (confirm ≠ some true →
      progressBriefingReset true confirm store st =
        ("Refusing to reset without confirm=true. This will delete stored jobs/state.",
          store, st)) ∧
    (confirm = some true →
      (progressBriefingReset true confirm store st).1 =
          "ok: cleared progress-briefing jobs + state" ∧
      readJobs (progressBriefingReset true confirm store st).2.1 = []) := by
  constructor
  · intro h
    simp [progressBriefingReset, h]
  · intro h
    subst h
    have hred : progressBriefingReset true (some true) store st =
        ("ok: cleared progress-briefing jobs + state", [], resetPluginState) := by
      simp [progressBriefingReset]
    rw [hred]
    exact ⟨rfl, by decide⟩

/-- Witness for C8: a concrete refused reset leaves a one-record store
untouched, and a concrete confirmed reset empties it. -/
theorem reset_confirmation_gate_witness :
    progressBriefingReset true (some false)
        [StoreLine.parsed { jobId := "a", createdAt := 1, updatedAt := 1, lastActivityAt := 1 }]
        resetPluginState =
      ("Refusing to reset without confirm=true. This will delete stored jobs/state.",
        [StoreLine.parsed { jobId := "a", createdAt := 1, updatedAt := 1, lastActivityAt := 1 }],
        resetPluginState) ∧
    readJobs (progressBriefingReset true (some true)
        [StoreLine.parsed { jobId := "a", createdAt := 1, updatedAt := 1, lastActivityAt := 1 }]
        resetPluginState).2.1 = [] := by
  refine ⟨(reset_confirmation_gate (some false) _ _).1 (by decide), ?_⟩
  exact ((reset_confirmation_gate (some true) _ _).2 rfl).2

/-- Claim C4: the scheduler's publish decision is positive iff (at least
the configured minimum interval has elapsed since the last publish AND
the rendered content differs from the last-published content after
stripping a leading timestamp header) OR an escalation signal is
pending. -/
theorem publish_decision_iff (st : PluginState) (text : String)
    (nowT pollEveryMs : Nat) :
    shouldPost st text nowT pollEveryMs = true ↔
      ((((nowT : Int) - (st.lastBriefAt : Int) ≥ (pollEveryMs : Int)) ∧
        stripHeader text ≠ stripHeader st.lastBriefContent) ∨
      st.observeEscalation.pending = true) := by
  simp [shouldPost, timePassed, contentChanged, Bool.or_eq_true, Bool.and_eq_true,
    decide_eq_true_eq, bne_iff_ne]

/-- Claim C5: on a tick that attempts a publish, a transport failure
leaves the pending escalation signal, the last-publish timestamp and the
last-published content marker all unchanged, while a successful publish
clears the pending flag and updates both markers. -/
theorem publish_failure_atomicity (st : PluginState) (text : String)
    (nowT pollEveryMs : Nat) (transportConfigured sendOk : Bool)
    (h : shouldPost st text nowT pollEveryMs = true) :
    (transportConfigured = true ∧ sendOk = false →
      publishStep st text nowT pollEveryMs transportConfigured sendOk =
        { posted := false, st := st }) ∧
    (transportConfigured = false ∨ sendOk = true →
      (publishStep st text nowT pollEveryMs transportConfigured sendOk).posted = true ∧
      (publishStep st text nowT pollEveryMs transportConfigured sendOk).st.observeEscalation.pending
          = false ∧
      (publishStep st text nowT pollEveryMs transportConfigured sendOk).st.lastBriefAt = nowT ∧
      (publishStep st text nowT pollEveryMs transportConfigured sendOk).st.lastBriefContent
          = text) := by
  constructor
  · rintro ⟨ht, hs⟩
    subst ht; subst hs
    simp [publishStep, h]
  · intro hok
    have hcond : (transportConfigured && !sendOk) = false := by
      rcases hok with h1 | h1 <;> simp [h1]
    by_cases hp : st.observeEscalation.pending <;>
      simp [publishStep, h, hcond, hp]

/-- Witness for C5: a concrete pending-escalation state with a
successful unconfigured-transport publish ends up consumed and stamped. -/
theorem publish_failure_atomicity_witness :
    (publishStep
        { resetPluginState with
          observeEscalation :=
            { pending := true, forcedMention := "@here", reason := "r", setAt := 1 } }
        "x" 5 3 false true).st.observeEscalation.pending = false ∧
    (publishStep
        { resetPluginState with
          observeEscalation :=
            { pending := true, forcedMention := "@here", reason := "r", setAt := 1 } }
        "x" 5 3 false true).st.lastBriefAt = 5 := by
  have h := (publish_failure_atomicity
    { resetPluginState with
      observeEscalation :=
        { pending := true, forcedMention := "@here", reason := "r", setAt := 1 } }
    "x" 5 3 false true (by decide)).2 (Or.inl rfl)
  exact ⟨h.2.1, h.2.2.1⟩

/-!  Helper lemmas about association-list maps and the offender scan. -/

theorem find?_append_none {α : Type} (l₁ l₂ : List α) (p : α → Bool)
    (h : l₁.find? p = none) : (l₁ ++ l₂).find? p = l₂.find? p := by
  induction l₁ with
  | nil => rfl
  | cons x xs ih =>
    by_cases hx : p x
    · simp [List.find?, hx] at h
    · simp only [List.find?, hx] at h ⊢
      exact ih h

theorem assocGet_map_set {β : Type} (m : List (String × β)) (k : String) (v : β)
    (h : m.any (fun e => e.1 == k) = true) :
    (m.map (fun e => if e.1 == k then (k, v) else e)).find? (fun e => e.1 == k) =
      some (k, v) := by
  induction m with
  | nil => simp at h
  | cons e rest ih =>
    rw [List.map_cons]
    by_cases he : (e.1 == k) = true
    · rw [if_pos he]
      simp [List.find?]
    · rw [if_neg he]
      have hb : (e.1 == k) = false := by simpa using he
      have h' : rest.any (fun e => e.1 == k) = true := by simpa [he] using h
      simp only [List.find?, hb]
      exact ih h'

theorem assocGet_assocSet_self {β : Type} (m : List (String × β)) (k : String)
    (v : β) : assocGet (assocSet m k v) k = some (k, v) := by
  unfold assocSet
  split
  · rename_i h
    exact assocGet_map_set m k v h
  · rename_i h
    unfold assocGet
    have hnone : m.find? (fun e => e.1 == k) = none := by
      rw [List.find?_eq_none]
      intro x hx hpx
      exact h (List.any_eq_true.mpr ⟨x, hx, hpx⟩)
    rw [find?_append_none _ _ _ hnone]
    simp [List.find?]

theorem getCount_setCount_self (m : List (String × Nat)) (k : String) (v : Nat) :
    getCount (setCount m k v) k = v := by
  simp [getCount, setCount, assocGet_assocSet_self]

theorem getScope_setScope_self (cs : List (String × List (String × Nat)))
    (k : String) (v : List (String × Nat)) : getScope (setScope cs k v) k = v := by
  simp [getScope, setScope, assocGet_assocSet_self]

theorem assocSet_keys {β : Type} (m : List (String × β)) (k : String) (v : β)
    (P : String → Prop) (hm : ∀ e ∈ m, P e.1) (hk : P k) :
    ∀ e ∈ assocSet m k v, P e.1 := by
  unfold assocSet
  split
  · intro e he
    rw [List.mem_map] at he
    obtain ⟨y, hy, rfl⟩ := he
    by_cases hyk : y.1 == k
    · simpa [hyk] using hk
    · simpa [hyk] using hm y hy
  · intro e he
    rcases List.mem_append.mp he with h1 | h1
    · exact hm e h1
    · simp at h1
      rw [h1]
      exact hk

theorem bumpN_keys (m : List (String × Nat)) (a : String) (n : Nat)
    (hm : ∀ e ∈ m, e.1 ≠ "") : ∀ e ∈ bumpN m a n, e.1 ≠ "" := by
  unfold bumpN
  split
  · exact hm
  · rename_i h
    have ha : a ≠ "" := fun hh => h (Or.inl hh)
    exact assocSet_keys m a _ (fun s => s ≠ "") hm ha

theorem bumpAgent_keys (tc : TickCounts) (m : List (String × Nat)) (a : String)
    (hm : ∀ e ∈ m, e.1 ≠ "") : ∀ e ∈ bumpAgent tc m a, e.1 ≠ "" := by
  simp only [bumpAgent]
  exact bumpN_keys _ _ _ (bumpN_keys _ _ _ (bumpN_keys _ _ _
    (bumpN_keys _ _ _ (bumpN_keys _ _ _ hm))))

theorem foldl_bumpAgent_keys (tc : TickCounts) (agents : List String) :
    ∀ m, (∀ e ∈ m, e.1 ≠ "") →
      ∀ e ∈ agents.foldl (bumpAgent tc) m, e.1 ≠ "" := by
  induction agents with
  | nil => exact fun m hm => hm
  | cons a rest ih => exact fun m hm => ih _ (bumpAgent_keys tc m a hm)

theorem bumpedCounters_keys (sc : List (String × Nat)) (tc : TickCounts)
    (hm : ∀ e ∈ sc, e.1 ≠ "") : ∀ e ∈ bumpedCounters sc tc, e.1 ≠ "" :=
  foldl_bumpAgent_keys tc (tickAgentsEsc tc) sc hm

theorem maxEntry_fold_spec (m : List (String × Nat)) :
    ∀ p : String × Nat,
      (∀ e ∈ m, e.2 ≤ (m.foldl (fun q e => if e.2 > q.2 then e else q) p).2) ∧
      p.2 ≤ (m.foldl (fun q e => if e.2 > q.2 then e else q) p).2 ∧
      ((m.foldl (fun q e => if e.2 > q.2 then e else q) p) = p ∨
        (m.foldl (fun q e => if e.2 > q.2 then e else q) p) ∈ m) := by
  induction m with
  | nil =>
    intro p
    exact ⟨fun e he => absurd he (List.not_mem_nil e), le_refl _, Or.inl rfl⟩
  | cons x xs ih =>
    intro p
    obtain ⟨ih1, ih2, ih3⟩ := ih (if x.2 > p.2 then x else p)
    have hx : x.2 ≤ (if x.2 > p.2 then x else p).2 := by split <;> omega
    have hp : p.2 ≤ (if x.2 > p.2 then x else p).2 := by split <;> omega
    refine ⟨?_, le_trans hp ih2, ?_⟩
    · intro e he
      rcases List.mem_cons.mp he with rfl | hm
      · exact le_trans hx ih2
      · exact ih1 e hm
    · rcases ih3 with h | h
      · by_cases hcond : x.2 > p.2
        · rw [List.foldl_cons, h]
          simp [hcond]
        · rw [List.foldl_cons, h]
          simp [hcond]
      · exact Or.inr (List.mem_cons_of_mem x h)

theorem maxEntry_ge (m : List (String × Nat)) (e : String × Nat) (he : e ∈ m) :
    e.2 ≤ (maxEntry m).2 :=
  (maxEntry_fold_spec m ("", 0)).1 e he

theorem maxEntry_mem_or (m : List (String × Nat)) :
    maxEntry m = ("", 0) ∨ maxEntry m ∈ m :=
  (maxEntry_fold_spec m ("", 0)).2.2

theorem maxEntry_threshold_iff (m : List (String × Nat)) (threshold : Nat)
    (hthr : 1 ≤ threshold) :
    threshold ≤ (maxEntry m).2 ↔ ∃ e ∈ m, threshold ≤ e.2 := by
  constructor
  · intro h
    rcases maxEntry_mem_or m with hm | hm
    · rw [hm] at h
      simp at h
      omega
    · exact ⟨maxEntry m, hm, h⟩
  · rintro ⟨e, hm, he⟩
    exact le_trans he (maxEntry_ge m e hm)

/-- Claim C2 (amended): for a poll where the file exists, its path is
unchanged and its size is at least the cursor `pos`, the tailer reads
exactly `min(maxBytesPerTick, size - pos)` bytes — but starting at byte
offset `size - min(maxBytesPerTick, size - pos)` (equal to `pos` only
when the new region fits under the cap, otherwise the tail end of the
new region) — and then advances `pos` to the new size regardless of how
many bytes were read. -/
theorem tailer_read_step (stPath path : String) (stPos size maxBytes : Nat)
    (hpath : stPath = path) (hsize : stPos ≤ size) :
    (tailerStep stPath stPos path size maxBytes).bytesToRead =
        min maxBytes (size - stPos) ∧
    (tailerStep stPath stPos path size maxBytes).readStart =
        size - min maxBytes (size - stPos) ∧
    (tailerStep stPath stPos path size maxBytes).newPos = size := by
  subst hpath
  have hlt : ¬size < stPos := not_lt.mpr hsize
  simp [tailerStep, hlt]

/-- Witness for C2's amended theorem at a concrete input. -/
theorem tailer_read_step_witness :
    (tailerStep "p" 3 "p" 10 100).bytesToRead = min 100 (10 - 3) ∧
    (tailerStep "p" 3 "p" 10 100).readStart = 10 - min 100 (10 - 3) ∧
    (tailerStep "p" 3 "p" 10 100).newPos = 10 :=
  tailer_read_step "p" "p" 3 10 100 rfl (by decide)

/-- Counterexample to C2 as stated: with `pos = 0`, `size = 10` and a
4-byte cap (file exists, path unchanged, `size ≥ pos`), the source reads
its 4 bytes starting at offset 6, not at the cursor position 0. -/
theorem tailer_read_at_pos_counterexample :
    (tailerStep "p" 0 "p" 10 4).bytesToRead = min 4 (10 - 0) ∧
    (tailerStep "p" 0 "p" 10 4).readStart ≠ 0 ∧
    (tailerStep "p" 0 "p" 10 4).readStart = 6 ∧
    (tailerStep "p" 0 "p" 10 4).newPos = 10 := by
  decide

/-!  Helper lemmas about the escalation state machine. -/

theorem escalateStep_fired_iff (cfg : ObserveCfg) (sc : List (String × Nat))
    (tc : TickCounts) (lastA : Nat) (pr : String) (sig : EscSignal) (nowT : Nat)
    (hthr : 1 ≤ cfg.threshold) :
    ((escalateStep cfg sc tc lastA pr sig nowT).fired = true ↔
      ((∃ e ∈ bumpedCounters sc tc, cfg.threshold ≤ e.2) ∧
        (nowT : Int) - (lastA : Int) ≥ (cfg.cooldownMs : Int))) := by
  simp only [escalateStep]
  split
  · rename_i h
    exact ⟨fun _ => ⟨(maxEntry_threshold_iff _ _ hthr).mp h.1, h.2⟩, fun _ => rfl⟩
  · rename_i h
    refine ⟨fun hf => absurd hf (by simp), fun hc => ?_⟩
    exact absurd ⟨(maxEntry_threshold_iff _ _ hthr).mpr hc.1, hc.2⟩ h

theorem escalateStep_no_fire (cfg : ObserveCfg) (sc : List (String × Nat))
    (tc : TickCounts) (lastA : Nat) (pr : String) (sig : EscSignal) (nowT : Nat)
    (h : ¬(cfg.threshold ≤ (maxEntry (bumpedCounters sc tc)).2 ∧
      (nowT : Int) - (lastA : Int) ≥ (cfg.cooldownMs : Int))) :
    escalateStep cfg sc tc lastA pr sig nowT =
      { scopeCounters := bumpedCounters sc tc, lastEscalateAt := lastA,
        lastEscalateReason := pr, signal := sig, fired := false } := by
  simp only [escalateStep]
  rw [if_neg h]

theorem escalateStep_fired_effects (cfg : ObserveCfg) (sc : List (String × Nat))
    (tc : TickCounts) (lastA : Nat) (pr : String) (sig : EscSignal) (nowT : Nat)
    (hthr : 1 ≤ cfg.threshold) (hkeys : ∀ e ∈ sc, e.1 ≠ "")
    (hf : (escalateStep cfg sc tc lastA pr sig nowT).fired = true) :
    (escalateStep cfg sc tc lastA pr sig nowT).signal =
      { pending := true, forcedMention := cfg.mention,
        reason := escReason cfg.threshold (maxEntry (bumpedCounters sc tc)).1
          (maxEntry (bumpedCounters sc tc)).2,
        setAt := nowT } ∧
    (escalateStep cfg sc tc lastA pr sig nowT).lastEscalateAt = nowT ∧
    getCount (escalateStep cfg sc tc lastA pr sig nowT).scopeCounters
      (maxEntry (bumpedCounters sc tc)).1 = cfg.threshold := by
  by_cases h : (cfg.threshold ≤ (maxEntry (bumpedCounters sc tc)).2 ∧
      (nowT : Int) - (lastA : Int) ≥ (cfg.cooldownMs : Int))
  · have hoff : (maxEntry (bumpedCounters sc tc)).1 ≠ "" := by
      rcases maxEntry_mem_or (bumpedCounters sc tc) with hm | hm
      · exfalso
        rw [hm] at h
        simp at h
        omega
      · exact bumpedCounters_keys sc tc hkeys _ hm
    simp only [escalateStep]
    rw [if_pos h]
    refine ⟨rfl, rfl, ?_⟩
    simp only [ne_eq]
    rw [if_pos hoff]
    exact getCount_setCount_self _ _ _
  · rw [escalateStep_no_fire cfg sc tc lastA pr sig nowT h] at hf
    simp at hf

theorem observeTick_esc_proj (cfg : ObserveCfg) (st : PluginState)
    (inp : ObserveInput) (hen : cfg.enabled = true) (hfile : inp.fileExists = true)
    (hnz : allZero (countLines cfg.scope inp.lines) = false)
    (hesc : cfg.escEnabled = true) :
    (observeTick cfg st inp).fired =
      (escalateStep cfg (getScope st.observe.counters (scopeKey cfg.scope))
        (countLines cfg.scope inp.lines) st.observe.lastEscalateAt
        st.observe.lastEscalateReason st.observeEscalation inp.nowT).fired ∧
    (observeTick cfg st inp).st.observeEscalation =
      (escalateStep cfg (getScope st.observe.counters (scopeKey cfg.scope))
        (countLines cfg.scope inp.lines) st.observe.lastEscalateAt
        st.observe.lastEscalateReason st.observeEscalation inp.nowT).signal ∧
    (observeTick cfg st inp).st.observe.lastEscalateAt =
      (escalateStep cfg (getScope st.observe.counters (scopeKey cfg.scope))
        (countLines cfg.scope inp.lines) st.observe.lastEscalateAt
        st.observe.lastEscalateReason st.observeEscalation inp.nowT).lastEscalateAt ∧
    (observeTick cfg st inp).st.observe.counters =
      setScope st.observe.counters (scopeKey cfg.scope)
        (escalateStep cfg (getScope st.observe.counters (scopeKey cfg.scope))
          (countLines cfg.scope inp.lines) st.observe.lastEscalateAt
          st.observe.lastEscalateReason st.observeEscalation inp.nowT).scopeCounters := by
  simp [observeTick, hen, hfile, hnz, hesc]

/-- Claim C1 (amended): on a tick with escalation enabled that observed
at least one qualifying count (so the all-zero early return is not
taken) and a positive configured threshold, the escalation fires iff
some attributed agent's cumulative counter — this tick's counts added to
the persisted counters, `cs` — reaches the threshold AND the cooldown
has elapsed since the last escalation; on firing the pending latch holds
the mention and the reason, the cooldown timestamp is stamped, and the
offending agent's counter is exactly the threshold afterwards. -/
theorem escalation_trigger_spec (cfg : ObserveCfg) (st : PluginState)
    (inp : ObserveInput) (cs : List (String × Nat))
    (hen : cfg.enabled = true) (hesc : cfg.escEnabled = true)
    (hthr : 1 ≤ cfg.threshold) (hfile : inp.fileExists = true)
    (hnz : allZero (countLines cfg.scope inp.lines) = false)
    (hkeys : ∀ e ∈ getScope st.observe.counters (scopeKey cfg.scope), e.1 ≠ "")
    (hcs : cs = bumpedCounters (getScope st.observe.counters (scopeKey cfg.scope))
      (countLines cfg.scope inp.lines)) :
    ((observeTick cfg st inp).fired = true ↔
      ((∃ e ∈ cs, cfg.threshold ≤ e.2) ∧
        (inp.nowT : Int) - (st.observe.lastEscalateAt : Int) ≥ (cfg.cooldownMs : Int))) ∧
    ((observeTick cfg st inp).fired = true →
      (observeTick cfg st inp).st.observeEscalation =
        { pending := true, forcedMention := cfg.mention,
          reason := escReason cfg.threshold (maxEntry cs).1 (maxEntry cs).2,
          setAt := inp.nowT } ∧
      (observeTick cfg st inp).st.observe.lastEscalateAt = inp.nowT ∧
      getCount (getScope (observeTick cfg st inp).st.observe.counters
        (scopeKey cfg.scope)) (maxEntry cs).1 = cfg.threshold) := by
  subst hcs
  obtain ⟨f1, f2, f3, f4⟩ := observeTick_esc_proj cfg st inp hen hfile hnz hesc
  constructor
  · rw [f1]
    exact escalateStep_fired_iff cfg _ _ _ _ _ _ hthr
  · intro hf
    rw [f1] at hf
    obtain ⟨e1, e2, e3⟩ := escalateStep_fired_effects cfg _ _ _ _ _ _ hthr hkeys hf
    refine ⟨?_, ?_, ?_⟩
    · rw [f2, e1]
    · rw [f3, e2]
    · rw [f4, getScope_setScope_self]
      exact e3

/-- Witness for C1's amended theorem: agent `pm` at cumulative 2 gets
one more attributed 401, reaching threshold 3 with the cooldown long
elapsed, and the escalation fires. -/
theorem escalation_trigger_spec_witness :
    (observeTick exCfg exStPm2
      { logPath := "p", fileExists := true, size := 5,
        lines := [exLine401pm], nowT := 99999 }).fired = true := by
  have h := escalation_trigger_spec exCfg exStPm2
    { logPath := "p", fileExists := true, size := 5,
      lines := [exLine401pm], nowT := 99999 }
    (bumpedCounters (getScope exStPm2.observe.counters (scopeKey exCfg.scope))
      (countLines exCfg.scope [exLine401pm]))
    rfl rfl (by decide) rfl (by decide) (by decide) rfl
  exact h.1.mpr (by decide)

/-- Counterexample to C1 as stated: escalation enabled, agent `pm`'s
cumulative counter sits at the threshold 3 and the cooldown has long
elapsed, but the tick observes no qualifying lines — the all-zero early
return skips the escalation block, so nothing fires, contradicting the
claimed "fires if and only if". -/
theorem escalation_trigger_counterexample :
    exCfg.escEnabled = true ∧
    exCfg.threshold ≤ getCount
      (getScope exStPm3.observe.counters (scopeKey exCfg.scope)) "pm" ∧
    ((99999 : Int) - (exStPm3.observe.lastEscalateAt : Int) ≥ (exCfg.cooldownMs : Int)) ∧
    (observeTick exCfg exStPm3
      { logPath := "p", fileExists := true, size := 5, lines := [], nowT := 99999 }).fired
        = false ∧
    ((observeTick exCfg exStPm3
      { logPath := "p", fileExists := true, size := 5, lines := [],
        nowT := 99999 }).st.observeEscalation.pending = false) := by
  decide

theorem tickStateStr_blocked (tc : TickCounts) (h : allZero tc = false) :
    tickStateStr tc = JobState.blocked := by
  unfold tickStateStr
  split
  · rfl
  · rename_i hcond
    push_neg at hcond
    obtain ⟨h1, h2, h3, h4, h5, h6, h7⟩ := hcond
    simp [allZero, h1, h2, h3, h4, h5, h6, h7] at h

/-- Claim C3 (amended): the detector upserts the scope's health record
with state `blocked` when any qualifying count for the tick is nonzero
(preceded by the optional per-agent sub-records, all `blocked`), upserts
it with state `waiting` when the source log file is missing, and — when
the file exists but every qualifying count is zero — performs no upsert
at all, so the record keeps its prior state (it is never set to
`running`). -/
theorem observe_health_job_states (cfg : ObserveCfg) (st : PluginState)
    (inp : ObserveInput) (hen : cfg.enabled = true) :
    (inp.fileExists = false →
      (observeTick cfg st inp).patches = [waitingPatch cfg.scope inp.logPath]) ∧
    ((waitingPatch cfg.scope inp.logPath).state = some JobState.waiting) ∧
    ((waitingPatch cfg.scope inp.logPath).jobId = baseJobId cfg.scope) ∧
    (inp.fileExists = true → allZero (countLines cfg.scope inp.lines) = true →
      (observeTick cfg st inp).patches = []) ∧
    (inp.fileExists = true → allZero (countLines cfg.scope inp.lines) = false →
      (observeTick cfg st inp).patches =
        perAgentPatches cfg (countLines cfg.scope inp.lines) ++
          [basePatch cfg.scope (countLines cfg.scope inp.lines)] ∧
      (basePatch cfg.scope (countLines cfg.scope inp.lines)).state =
        some JobState.blocked ∧
      (basePatch cfg.scope (countLines cfg.scope inp.lines)).jobId =
        baseJobId cfg.scope ∧
      ∀ q ∈ perAgentPatches cfg (countLines cfg.scope inp.lines),
        q.state = some JobState.blocked) := by
  refine ⟨?_, rfl, rfl, ?_, ?_⟩
  · intro hf
    simp [observeTick, hen, hf]
  · intro ht hz
    simp [observeTick, hen, ht, hz]
  · intro ht hz
    refine ⟨?_, ?_, rfl, ?_⟩
    · by_cases hescE : cfg.escEnabled = true
      · simp [observeTick, hen, ht, hz, hescE]
      · simp only [Bool.not_eq_true] at hescE
        simp [observeTick, hen, ht, hz, hescE]
    · simp [basePatch, tickStateStr_blocked _ hz]
    · intro q hq
      unfold perAgentPatches at hq
      split at hq
      · exact absurd hq (List.not_mem_nil q)
      · rw [List.mem_map] at hq
        obtain ⟨a, _, rfl⟩ := hq
        rfl

/-- Witness for C3's amended theorem: with the observation enabled and
the log file missing, the tick upserts exactly the `waiting` health
record. -/
theorem observe_health_job_states_witness :
    (observeTick exCfg resetPluginState
      { logPath := "p", fileExists := false, size := 0, lines := [],
        nowT := 1 }).patches = [waitingPatch Scope.gateway "p"] := by
  have h := observe_health_job_states exCfg resetPluginState
    { logPath := "p", fileExists := false, size := 0, lines := [], nowT := 1 } rfl
  exact h.1 rfl

/-- Counterexample to C3 as stated: the log file exists and every
qualifying count for the tick is zero, yet the detector issues no upsert
at all — the health job is not updated to `running`. -/
theorem observe_health_job_running_counterexample :
    exCfg.enabled = true ∧
    ({ logPath := "p", fileExists := true, size := 3, lines := [],
        nowT := 50 } : ObserveInput).fileExists = true ∧
    (observeTick exCfg exStPm3
      { logPath := "p", fileExists := true, size := 3, lines := [],
        nowT := 50 }).patches = [] := by
  decide

/-!  Helper lemmas for the attribution invariant (C10). -/

theorem step401_maps (b : Bool) (tc : TickCounts) :
    agentMaps (step401 b "" tc) = agentMaps tc := by
  unfold step401
  split <;> rfl

theorem step405_maps (b : Bool) (tc : TickCounts) :
    agentMaps (step405 b "" tc) = agentMaps tc := by
  unfold step405
  split <;> rfl

theorem step429_maps (b : Bool) (tc : TickCounts) :
    agentMaps (step429 b "" tc) = agentMaps tc := by
  unfold step429
  split <;> rfl

theorem step5xx_maps (b : Bool) (tc : TickCounts) :
    agentMaps (step5xx b "" tc) = agentMaps tc := by
  unfold step5xx
  split <;> rfl

theorem stepExecutorFailed_maps (b : Bool) (tc : TickCounts) :
    agentMaps (stepExecutorFailed b "" tc) = agentMaps tc := by
  unfold stepExecutorFailed
  split <;> rfl

theorem stepExecFailed_maps (b : Bool) (tc : TickCounts) :
    agentMaps (stepExecFailed b tc) = agentMaps tc := by
  unfold stepExecFailed
  split <;> rfl

theorem stepPluginLoadFailed_maps (b : Bool) (tc : TickCounts) :
    agentMaps (stepPluginLoadFailed b tc) = agentMaps tc := by
  unfold stepPluginLoadFailed
  split <;> rfl

theorem countLine_maps_unattributed (scope : Scope) (tc : TickCounts) (l : ObsLine)
    (hl : l.agent = "") :
    agentMaps (countLine scope tc l) = agentMaps tc := by
  simp only [countLine]
  split
  · rfl
  · rw [hl, stepPluginLoadFailed_maps, stepExecFailed_maps, stepExecutorFailed_maps,
      step5xx_maps, step429_maps, step405_maps, step401_maps]

theorem countLinesAux_maps (scope : Scope) (lines : List ObsLine) :
    (∀ l ∈ lines, l.agent = "") →
    ∀ tc : TickCounts,
      agentMaps (lines.foldl (countLine scope) tc) = agentMaps tc := by
  induction lines with
  | nil => exact fun _ _ => rfl
  | cons l rest ih =>
    intro h tc
    have hl : l.agent = "" := h l (List.mem_cons_self l rest)
    have hrest : ∀ x ∈ rest, x.agent = "" :=
      fun x hx => h x (List.mem_cons_of_mem l hx)
    exact (ih hrest (countLine scope tc l)).trans
      (countLine_maps_unattributed scope tc l hl)

theorem countLines_maps_unattributed (scope : Scope) (lines : List ObsLine)
    (h : ∀ l ∈ lines, l.agent = "") :
    (countLines scope lines).agents401 = [] ∧
    (countLines scope lines).agents405 = [] ∧
    (countLines scope lines).agents429 = [] ∧
    (countLines scope lines).agents5xx = [] ∧
    (countLines scope lines).agentsExecutorFailed = [] := by
  have hm := countLinesAux_maps scope lines h {}
  simp only [agentMaps, Prod.mk.injEq] at hm
  exact ⟨hm.1, hm.2.1, hm.2.2.1, hm.2.2.2.1, hm.2.2.2.2⟩

theorem bumpedCounters_empty_maps (sc : List (String × Nat)) (tc : TickCounts)
    (h1 : tc.agents401 = []) (h2 : tc.agents405 = []) (h3 : tc.agents429 = [])
    (h4 : tc.agents5xx = []) (h5 : tc.agentsExecutorFailed = []) :
    bumpedCounters sc tc = sc := by
  unfold bumpedCounters tickAgentsEsc keysUnion
  simp [h1, h2, h3, h4, h5, dedupFirstAux]

theorem observeTick_unattributed (cfg : ObserveCfg) (st : PluginState)
    (inp : ObserveInput) (hthr : 1 ≤ cfg.threshold)
    (hlines : ∀ l ∈ inp.lines, l.agent = "")
    (hc : getScope st.observe.counters (scopeKey cfg.scope) = [])
    (hp : st.observeEscalation.pending = false) :
    getScope (observeTick cfg st inp).st.observe.counters (scopeKey cfg.scope) = [] ∧
    (observeTick cfg st inp).st.observeEscalation.pending = false ∧
    (observeTick cfg st inp).fired = false := by
  by_cases hen : cfg.enabled = true
  case neg =>
    simp only [Bool.not_eq_true] at hen
    simp [observeTick, hen, hc, hp]
  by_cases hfile : inp.fileExists = true
  case neg =>
    simp only [Bool.not_eq_true] at hfile
    simp [observeTick, hen, hfile, hc, hp]
  by_cases hz : allZero (countLines cfg.scope inp.lines) = true
  · simp [observeTick, hen, hfile, hz, hc, hp]
  by_cases hescE : cfg.escEnabled = true
  case neg =>
    simp only [Bool.not_eq_true] at hescE
    simp only [Bool.not_eq_true] at hz
    simp [observeTick, hen, hfile, hz, hescE, hc, hp]
  simp only [Bool.not_eq_true] at hz
  obtain ⟨m1, m2, m3, m4, m5⟩ :=
    countLines_maps_unattributed cfg.scope inp.lines hlines
  have hbump : bumpedCounters (getScope st.observe.counters (scopeKey cfg.scope))
      (countLines cfg.scope inp.lines) = [] := by
    rw [hc]
    exact bumpedCounters_empty_maps [] _ m1 m2 m3 m4 m5
  have hnofire : escalateStep cfg (getScope st.observe.counters (scopeKey cfg.scope))
      (countLines cfg.scope inp.lines) st.observe.lastEscalateAt
      st.observe.lastEscalateReason st.observeEscalation inp.nowT =
      { scopeCounters := bumpedCounters
          (getScope st.observe.counters (scopeKey cfg.scope))
          (countLines cfg.scope inp.lines),
        lastEscalateAt := st.observe.lastEscalateAt,
        lastEscalateReason := st.observe.lastEscalateReason,
        signal := st.observeEscalation, fired := false } := by
    apply escalateStep_no_fire
    rw [hbump]
    rintro ⟨hcontra, -⟩
    have : cfg.threshold ≤ 0 := by simpa [maxEntry] using hcontra
    omega
  obtain ⟨f1, f2, f3, f4⟩ := observeTick_esc_proj cfg st inp hen hfile hz hescE
  refine ⟨?_, ?_, ?_⟩
  · rw [f4, hnofire]
    rw [getScope_setScope_self]
    exact hbump
  · rw [f2, hnofire]
    exact hp
  · rw [f1, hnofire]

/-- Claim C10 (amended): matched lines with no extractable agent
identity are never added to any cumulative escalation counter, so with a
positive configured threshold, a stream of ticks whose matched lines are
all unattributed — starting from empty counters and no pending signal —
never fires the escalation: the scope's counters stay empty and no
signal becomes pending. -/
theorem unattributed_stream_never_escalates (cfg : ObserveCfg)
    (hthr : 1 ≤ cfg.threshold) (inps : List ObserveInput)
    (hlines : ∀ i ∈ inps, ∀ l ∈ i.lines, l.agent = "") :
    ∀ st : PluginState,
      getScope st.observe.counters (scopeKey cfg.scope) = [] →
      st.observeEscalation.pending = false →
      getScope (runObserve cfg st inps).observe.counters (scopeKey cfg.scope) = [] ∧
      (runObserve cfg st inps).observeEscalation.pending = false := by
  induction inps with
  | nil => exact fun st hc hp => ⟨hc, hp⟩
  | cons i rest ih =>
    intro st hc hp
    obtain ⟨g1, g2, _⟩ := observeTick_unattributed cfg st i hthr
      (hlines i (List.mem_cons_self i rest)) hc hp
    exact ih (fun x hx => hlines x (List.mem_cons_of_mem i hx))
      (observeTick cfg st i).st g1 g2

/-- Witness for C10's amended theorem: two ticks of unattributed 401
lines leave the counters empty and nothing pending. -/
theorem unattributed_stream_never_escalates_witness :
    getScope (runObserve exCfg resetPluginState
      [{ logPath := "p", fileExists := true, size := 5,
          lines := [exLine401anon], nowT := 10 },
        { logPath := "p", fileExists := true, size := 9,
          lines := [exLine401anon, exLine401anon], nowT := 20 }]).observe.counters
      (scopeKey exCfg.scope) = [] ∧
    (runObserve exCfg resetPluginState
      [{ logPath := "p", fileExists := true, size := 5,
          lines := [exLine401anon], nowT := 10 },
        { logPath := "p", fileExists := true, size := 9,
          lines := [exLine401anon, exLine401anon], nowT := 20 }]).observeEscalation.pending
      = false := by
  exact unattributed_stream_never_escalates exCfg (by decide)
    [{ logPath := "p", fileExists := true, size := 5,
        lines := [exLine401anon], nowT := 10 },
      { logPath := "p", fileExists := true, size := 9,
        lines := [exLine401anon, exLine401anon], nowT := 20 }]
    (by decide) resetPluginState (by decide) rfl

/-- Counterexample to C10 as stated: with a configured threshold of 0,
a single unattributed matched 401 line fires the escalation (the latch
becomes pending) even though no counter was ever attributed — the
claim's "never fires no matter how many lines accumulate" fails for a
zero threshold. -/
theorem unattributed_zero_threshold_counterexample :
    exLine401anon.agent = "" ∧
    ((observeTick exCfgThr0 resetPluginState
      { logPath := "p", fileExists := true, size := 5,
        lines := [exLine401anon], nowT := 99999 }).st.observeEscalation.pending = true) ∧
    getScope ((observeTick exCfgThr0 resetPluginState
      { logPath := "p", fileExists := true, size := 5,
        lines := [exLine401anon], nowT := 99999 }).st.observe.counters) "gateway" = [] := by
  decide

end ProgressBriefing
